import Mathlib

/-!
Verification of the `davidul/buffers` repository (package `seekbuffer`).

The development shallowly embeds the three components the claims are about:

* `SB` — the base `SeekBuffer` (`davidul/seekbuffer/seekbuffer.go`): a byte
  sequence plus a cursor (`offset`).
* `FSD` — the `FileSyncDecorator` (`davidul/seekbuffer/filesync_decorator.go`),
  which mirrors buffer content to a backing file.
* `TD` — the `TransactionDecorator`, which adds nestable
  Begin/Commit/Rollback over any implementation of the `SeekableBuffer`
  interface; it is embedded polymorphically over a record of operations
  (`SeekableOps`), mirroring Go's interface dispatch.

Bytes are `UInt8`, byte slices are `List UInt8`.  Go `int` offsets are
embedded as `Nat`: every offset the code ever stores is non-negative (the
spec declares negative seek offsets undefined behaviour and out of scope),
while `Len`, which Go computes as a possibly negative `int`, is embedded as
`Int`.  Go slice expressions `b[o:]` panic when `o > len(b)`; operations that
can reach such a slice (`ReadBytes`) return `Option`, with `none` embedding
the panic.  File I/O is embedded with an explicit on-disk byte sequence; a
`Bool` parameter (`fsOk`) injects the only filesystem fault the claims need,
a failing file write during catch-up sync.
-/

/-- The base `SeekBuffer`: a growable byte sequence and a read cursor.
Embeds the struct of `davidul/seekbuffer/seekbuffer.go` (the mutex only
serialises calls and is irrelevant to the sequential semantics). -/
structure SB where
  buffer : List UInt8
  offset : Nat
deriving DecidableEq, Repr

/-- `NewEmptySeekBuffer`. -/
def NewEmptySeekBuffer : SB := ⟨[], 0⟩

/-- `NewSeekBuffer`: buffer with initial (copied) content, cursor 0. -/
def NewSeekBuffer (src : List UInt8) : SB := ⟨src, 0⟩

/-- `SeekBuffer.Bytes`: the full backing sequence, regardless of cursor. -/
def SB.Bytes (s : SB) : List UInt8 := s.buffer

/-- `SeekBuffer.Write`: appends `src`, returns the byte count (the `error`
result is always `nil` in the source, so it is omitted here). -/
def SB.Write (s : SB) (src : List UInt8) : Nat × SB :=
  (src.length, { s with buffer := s.buffer ++ src })

/-- `SeekBuffer.Append`: appends `src`, no return value. -/
def SB.Append (s : SB) (src : List UInt8) : SB :=
  { s with buffer := s.buffer ++ src }

/-- `SeekBuffer.Read` into a destination of capacity `dstLen`.  Returns the
bytes copied into `dst`, the count `n`, the end-of-data flag (`io.EOF`), and
the updated buffer. -/
def SB.Read (s : SB) (dstLen : Nat) : List UInt8 × Nat × Bool × SB :=
  if s.buffer.length ≤ s.offset then
    ([], 0, true, s)
  else
    let data := (s.buffer.drop s.offset).take dstLen
    (data, data.length, false, { s with offset := s.offset + data.length })

/-- `SeekBuffer.Rewind`. -/
def SB.Rewind (s : SB) : SB := { s with offset := 0 }

/-- `SeekBuffer.Seek`: sets the cursor unconditionally. -/
def SB.Seek (s : SB) (off : Nat) : SB := { s with offset := off }

/-- `SeekBuffer.Close`: discards the content (`buffer = nil`) and resets the
cursor (the `error` result is always `nil` in the source). -/
def SB.Close (_ : SB) : SB := ⟨[], 0⟩

/-- `SeekBuffer.ReadBytes c`: reads up to and including the first occurrence
of `c` from the cursor.  The source first evaluates `s.buffer[s.offset:]`,
which panics when `offset > len(buffer)`; the panic is embedded as `none`.
Otherwise returns the bytes, the end-of-data flag, and the updated buffer. -/
def SB.ReadBytes (s : SB) (c : UInt8) : Option (List UInt8 × Bool × SB) :=
  if s.offset ≤ s.buffer.length then
    match (s.buffer.drop s.offset).findIdx? (· == c) with
    | some i =>
        some ((s.buffer.drop s.offset).take (i + 1), false,
              { s with offset := s.offset + i + 1 })
    | none =>
        some (s.buffer.drop s.offset, true,
              { s with offset := s.buffer.length })
  else
    none

/-- `SeekBuffer.Len`: unread byte count `len(buffer) - offset`, a Go `int`
that is negative when the cursor was seeked past the end. -/
def SB.Len (s : SB) : Int := (s.buffer.length : Int) - (s.offset : Int)

/-- C8 counterexample input: content `[97]`, cursor `0`, empty destination. -/
theorem read_empty_dst_returns_zero :
    SB.Read ⟨[97], 0⟩ 0 = ([], 0, false, ⟨[97], 0⟩) ∧
    ¬ (0 < (SB.Read ⟨[97], 0⟩ 0).2.1) ∧
    (⟨[97], 0⟩ : SB).offset < (⟨[97], 0⟩ : SB).buffer.length := by
  refine ⟨?_, ?_, ?_⟩ <;> simp [SB.Read]

/-- C8 (amended): `read` copies `min(len(dst), len(content) - cursor)` bytes
from the cursor and advances the cursor by that count; at or past the end it
returns `n = 0` with end-of-data; otherwise it returns
`n = min(len(dst), len(content) - cursor)` with no end-of-data signal, and
`n` is positive whenever the destination is nonempty. -/
theorem read_characterization (s : SB) (dstLen : Nat) :
    (s.buffer.length ≤ s.offset → SB.Read s dstLen = ([], 0, true, s)) ∧
    (s.offset < s.buffer.length →
      SB.Read s dstLen =
        ((s.buffer.drop s.offset).take dstLen,
         min dstLen (s.buffer.length - s.offset),
         false,
         ⟨s.buffer, s.offset + min dstLen (s.buffer.length - s.offset)⟩)) ∧
    (s.offset < s.buffer.length → 0 < dstLen → 0 < (SB.Read s dstLen).2.1) := by
  refine ⟨fun h => by simp [SB.Read, h], fun h => ?_, fun h hd => ?_⟩
  · have hlt : ¬ s.buffer.length ≤ s.offset := by omega
    simp [SB.Read, hlt, List.length_take, List.length_drop]
  · have hlt : ¬ s.buffer.length ≤ s.offset := by omega
    simp [SB.Read, hlt, List.length_take, List.length_drop]
    omega

/-- Witness for `read_characterization` at content `[5, 6]`, cursor `1`,
destination capacity `4`. -/
theorem read_characterization_witness :
    SB.Read ⟨[5, 6], 1⟩ 4 = ([6], 1, false, ⟨[5, 6], 2⟩) ∧
    0 < (SB.Read ⟨[5, 6], 1⟩ 4).2.1 := by
  have h := read_characterization ⟨[5, 6], 1⟩ 4
  refine ⟨?_, h.2.2 (by decide) (by decide)⟩
  have h2 := h.2.1 (by decide)
  simpa using h2

/-- C7 counterexample input: empty content, `seek(1)`, then `read_until 0`.
The claim asserts normal termination with the empty remainder, cursor `0`
and end-of-data; the code instead panics on the out-of-range slice
`s.buffer[s.offset:]`, embedded as `none`. -/
theorem readbytes_past_end_panics :
    SB.ReadBytes (SB.Seek ⟨[], 0⟩ 1) 0 = none ∧
    SB.ReadBytes (SB.Seek ⟨[], 0⟩ 1) 0 ≠ some ([], true, ⟨[], 0⟩) := by
  refine ⟨?_, ?_⟩ <;> simp [SB.ReadBytes, SB.Seek]

/-- C7 (amended): after `seek(offset)` with `offset` strictly greater than
`len(C)`, `read_until` does not terminate normally: it aborts on the
out-of-range slice (embedded as `none`).  At `offset = len(C)` it does
terminate normally with the empty remainder, cursor `len(C)` and
end-of-data, mirroring `read`'s end-of-data convention. -/
theorem readbytes_beyond_end (C : List UInt8) (off : Nat) (c : UInt8)
    (h : C.length < off) :
    SB.ReadBytes (SB.Seek ⟨C, 0⟩ off) c = none ∧
    SB.ReadBytes (SB.Seek ⟨C, 0⟩ C.length) c =
      some ([], true, ⟨C, C.length⟩) := by
  constructor
  · have hno : ¬ off ≤ C.length := by omega
    simp [SB.ReadBytes, SB.Seek, hno]
  · simp [SB.ReadBytes, SB.Seek]

/-- Witness for `readbytes_beyond_end` at `C = [3]`, `off = 2`, `c = 7`. -/
theorem readbytes_beyond_end_witness :
    SB.ReadBytes (SB.Seek ⟨[3], 0⟩ 2) 7 = none ∧
    SB.ReadBytes (SB.Seek ⟨[3], 0⟩ 1) 7 = some ([], true, ⟨[3], 1⟩) := by
  have h := readbytes_beyond_end [3] 2 7 (by decide)
  exact ⟨h.1, by simpa using h.2⟩

/-- The `FileSyncDecorator` (`davidul/seekbuffer/filesync_decorator.go`),
embedded over a concrete `SB` wrapped store.  The open `*os.File` handle is
embedded as `filePos : Option Nat` (`none` = no open handle, `some p` = an
open handle at position `p`), and `disk` holds the bytes of the backing file
at the sync path — the on-disk content, which persists after the handle is
closed.  `writtenBytes` is the sync frontier (`synced_length`). -/
structure FSD where
  buffer : SB
  filePos : Option Nat
  filename : String
  writtenBytes : Nat
  syncEnabled : Bool
  disk : List UInt8
deriving DecidableEq, Repr

/-- `NewFileSyncDecorator`, with `disk` the pre-existing bytes of the file
that a later `EnableFileSync` will target (the Go constructor does not touch
the filesystem). -/
def NewFileSyncDecorator (b : SB) (disk : List UInt8) : FSD :=
  ⟨b, none, "", 0, false, disk⟩

/-- POSIX positional file write: overwrite `data` at `pos`, zero-padding if
`pos` is beyond the end of the file. -/
def fileWrite (disk : List UInt8) (pos : Nat) (data : List UInt8) : List UInt8 :=
  disk.take pos ++ List.replicate (pos - disk.length) 0 ++ data ++
    disk.drop (pos + data.length)

/-- `FileSyncDecorator.syncNewDataToFile`: appends the unsynced tail
`buffer[writtenBytes:]` to the file at position `writtenBytes`, then restores
the saved handle position.  `fsOk` embeds the filesystem's behaviour at the
file-write call: `false` makes the write fail, in which case the error is
returned immediately and the handle position is left at `writtenBytes` (the
source returns before restoring it).  Returns `(errored, state)`. -/
def FSD.syncNewDataToFile (s : FSD) (fsOk : Bool) : Bool × FSD :=
  match s.filePos with
  | none => (false, s)
  | some pos =>
    if !s.syncEnabled then (false, s)
    else
      let bufferData := SB.Bytes s.buffer
      if s.writtenBytes < bufferData.length then
        let newData := bufferData.drop s.writtenBytes
        if fsOk then
          (false, { s with
            disk := fileWrite s.disk s.writtenBytes newData,
            writtenBytes := s.writtenBytes + newData.length,
            filePos := some pos })
        else
          (true, { s with filePos := some s.writtenBytes })
      else (false, s)

/-- `FileSyncDecorator.EnableFileSync`, in the case where the filesystem
calls succeed (open, truncate, write): closes the old handle if it pointed
at a different path, opens `fn` (position 0, on-disk bytes kept — the open
mode has no `O_TRUNC`), enables sync with `writtenBytes = 0`, and — only
when the wrapped buffer is nonempty — truncates the file and performs a full
catch-up sync. -/
def FSD.EnableFileSync (s : FSD) (fn : String) : FSD :=
  let s0 := if s.filePos.isSome && (s.filename != fn)
            then { s with filePos := none } else s
  let s1 := { s0 with filePos := some 0, filename := fn,
                      syncEnabled := true, writtenBytes := 0 }
  if 0 < (SB.Bytes s1.buffer).length then
    let s2 := { s1 with disk := [] }
    (FSD.syncNewDataToFile s2 true).2
  else s1

/-- `FileSyncDecorator.DisableFileSync`: closes the handle if open and
clears the sync state; the buffer content is untouched. -/
def FSD.DisableFileSync (s : FSD) : FSD :=
  match s.filePos with
  | some _ => { s with filePos := none, filename := "", writtenBytes := 0,
                       syncEnabled := false }
  | none => { s with syncEnabled := false }

/-- `FileSyncDecorator.Write`: writes to the wrapped buffer (which never
fails), then catch-up syncs if enabled; a sync failure is returned to the
caller with the count forced to 0. -/
def FSD.Write (s : FSD) (src : List UInt8) (fsOk : Bool) : Nat × Bool × FSD :=
  let r := SB.Write s.buffer src
  let s1 := { s with buffer := r.2 }
  if s1.syncEnabled && s1.filePos.isSome then
    let r2 := FSD.syncNewDataToFile s1 fsOk
    if r2.1 then (0, true, r2.2) else (r.1, false, r2.2)
  else (r.1, false, s1)

/-- `FileSyncDecorator.Append`: appends to the wrapped buffer, then catch-up
syncs if enabled, discarding any sync error. -/
def FSD.Append (s : FSD) (src : List UInt8) (fsOk : Bool) : FSD :=
  let s1 := { s with buffer := SB.Append s.buffer src }
  if s1.syncEnabled && s1.filePos.isSome then
    (FSD.syncNewDataToFile s1 fsOk).2
  else s1

/-- `FileSyncDecorator.Read`: pure forward to the wrapped buffer. -/
def FSD.Read (s : FSD) (dstLen : Nat) : List UInt8 × Nat × Bool × FSD :=
  let r := SB.Read s.buffer dstLen
  (r.1, r.2.1, r.2.2.1, { s with buffer := r.2.2.2 })

/-- `FileSyncDecorator.Rewind`: rewinds the wrapped buffer and, if syncing,
repositions the file handle to 0. -/
def FSD.Rewind (s : FSD) : FSD :=
  let s1 := { s with buffer := SB.Rewind s.buffer }
  if s1.syncEnabled && s1.filePos.isSome then { s1 with filePos := some 0 }
  else s1

/-- `FileSyncDecorator.Seek`: seeks the wrapped buffer and, if syncing,
repositions the file handle to the same offset. -/
def FSD.Seek (s : FSD) (off : Nat) : FSD :=
  let s1 := { s with buffer := SB.Seek s.buffer off }
  if s1.syncEnabled && s1.filePos.isSome then { s1 with filePos := some off }
  else s1

/-- `FileSyncDecorator.Bytes`: forward to the wrapped buffer. -/
def FSD.Bytes (s : FSD) : List UInt8 := SB.Bytes s.buffer

/-- `FileSyncDecorator.Len`: forward to the wrapped buffer. -/
def FSD.Len (s : FSD) : Int := SB.Len s.buffer

/-- `FileSyncDecorator.ReadBytes`: forward to the wrapped buffer (the
wrapped buffer's out-of-range panic propagates). -/
def FSD.ReadBytes (s : FSD) (c : UInt8) : Option (List UInt8 × Bool × FSD) :=
  (SB.ReadBytes s.buffer c).map (fun r => (r.1, r.2.1, { s with buffer := r.2.2 }))

/-- `FileSyncDecorator.Close`: closes the wrapped buffer, then closes the
file handle (the on-disk bytes persist) and clears all sync state. -/
def FSD.Close (s : FSD) : FSD :=
  let s1 := { s with buffer := SB.Close s.buffer }
  match s1.filePos with
  | some _ => { s1 with filePos := none, filename := "", writtenBytes := 0,
                        syncEnabled := false }
  | none => s1

/-- `FileSyncDecorator.IsSyncEnabled`. -/
def FSD.IsSyncEnabled (s : FSD) : Bool := s.syncEnabled

/-- C6 counterexample input: empty wrapped buffer, target file pre-existing
with bytes `[9, 9]`.  The claim says `enable_sync` truncates and leaves the
file equal to the (empty) buffer content; the code skips the truncation when
the buffer is empty, so the file keeps its old bytes. -/
theorem enable_sync_empty_buffer_skips_truncate :
    (FSD.EnableFileSync ⟨⟨[], 0⟩, none, "", 0, false, [9, 9]⟩ "f").disk = [9, 9] ∧
    (FSD.EnableFileSync ⟨⟨[], 0⟩, none, "", 0, false, [9, 9]⟩ "f").disk ≠
      FSD.Bytes (FSD.EnableFileSync ⟨⟨[], 0⟩, none, "", 0, false, [9, 9]⟩ "f")
      := by
  decide

/-- C6 (amended): a successful `enable_sync(path)` always enables sync on
`path` and resets `synced_length` to 0; the truncation and full catch-up
sync happen only when the wrapped store's content is nonempty, in which case
the file's bytes end up exactly equal to the content (and `synced_length`
advances to the full length).  When the content is empty the file keeps
whatever bytes it previously had. -/
theorem enable_sync_catchup (s : FSD) (fn : String) :
    (FSD.EnableFileSync s fn).syncEnabled = true ∧
    (FSD.EnableFileSync s fn).filename = fn ∧
    (FSD.Bytes s ≠ [] →
      (FSD.EnableFileSync s fn).disk = FSD.Bytes s ∧
      (FSD.EnableFileSync s fn).writtenBytes = (FSD.Bytes s).length) ∧
    (FSD.Bytes s = [] →
      (FSD.EnableFileSync s fn).disk = s.disk ∧
      (FSD.EnableFileSync s fn).writtenBytes = 0) := by
  by_cases hb : s.buffer.buffer = []
  · have hlen0 : ¬ 0 < s.buffer.buffer.length := by simp [hb]
    refine ⟨?_, ?_, ?_, ?_⟩ <;>
      simp [FSD.EnableFileSync, FSD.Bytes, SB.Bytes, hb, hlen0] <;>
      split <;> simp [hlen0]
  · have hlen : 0 < s.buffer.buffer.length := by
      cases h : s.buffer.buffer with
      | nil => exact absurd h hb
      | cons a l => simp [h]
    refine ⟨?_, ?_, ?_, ?_⟩ <;>
      simp [FSD.EnableFileSync, FSD.Bytes, SB.Bytes, hb,
            FSD.syncNewDataToFile, fileWrite, hlen] <;>
      split <;> simp [hlen, FSD.syncNewDataToFile, fileWrite]

/-- Witness for `enable_sync_catchup`: buffer content `[5]`, pre-existing
file bytes `[9]`; after enabling, the file holds `[5]` and the sync frontier
is 1. -/
theorem enable_sync_catchup_witness :
    (FSD.EnableFileSync ⟨⟨[5], 0⟩, none, "", 0, false, [9]⟩ "f").syncEnabled = true ∧
    (FSD.EnableFileSync ⟨⟨[5], 0⟩, none, "", 0, false, [9]⟩ "f").disk = [5] ∧
    (FSD.EnableFileSync ⟨⟨[5], 0⟩, none, "", 0, false, [9]⟩ "f").writtenBytes = 1 := by
  have h := enable_sync_catchup ⟨⟨[5], 0⟩, none, "", 0, false, [9]⟩ "f"
  have h3 := h.2.2.1 (by decide)
  exact ⟨h.1, by simpa using h3.1, by simpa using h3.2⟩

/-- C9: with sync enabled and unsynced data present, a `write` whose
catch-up sync fails returns count 0 with an error, while the wrapped
store's in-memory content already contains the appended bytes (the mutation
is not rolled back); the file handle is left positioned at the sync
frontier. -/
theorem write_sync_failure (s : FSD) (src : List UInt8) (p : Nat)
    (he : s.syncEnabled = true) (hf : s.filePos = some p)
    (hu : s.writtenBytes < s.buffer.buffer.length + src.length) :
    FSD.Write s src false =
      (0, true, { s with buffer := { s.buffer with buffer := s.buffer.buffer ++ src },
                         filePos := some s.writtenBytes }) ∧
    (FSD.Write s src false).2.2.buffer.buffer = s.buffer.buffer ++ src ∧
    (FSD.Write s src false).2.2.disk = s.disk := by
  refine ⟨?_, ?_, ?_⟩ <;>
    simp [FSD.Write, SB.Write, FSD.syncNewDataToFile, SB.Bytes, he, hf, hu]

/-- Witness for `write_sync_failure`: empty buffer synced to an empty file,
writing `[1]` while the filesystem write fails. -/
theorem write_sync_failure_witness :
    FSD.Write ⟨⟨[], 0⟩, some 0, "f", 0, true, []⟩ [1] false =
      (0, true, ⟨⟨[1], 0⟩, some 0, "f", 0, true, []⟩) := by
  have h := write_sync_failure ⟨⟨[], 0⟩, some 0, "f", 0, true, []⟩ [1] 0
    (by decide) (by decide) (by decide)
  simpa using h.1

/-- The `SeekableBuffer` interface (Go: `io.Reader`, `io.Writer`,
`io.Closer`, `Bytes`, `Append`, `Rewind`, `Seek`, `Len`, `ReadBytes`),
embedded as a record of operations over a state type `σ`; the
`TransactionDecorator` is parameterised over it, mirroring Go's interface
dispatch.  `write` returns `(count, errored, state)`; `read` returns
`(bytes, count, endOfData, state)`; `readBytes` returns `none` for a panic;
`close` discards the error result (always `nil` for both instances here). -/
structure SeekableOps (σ : Type) where
  bytes : σ → List UInt8
  len : σ → Int
  write : σ → List UInt8 → Nat × Bool × σ
  append : σ → List UInt8 → σ
  read : σ → Nat → List UInt8 × Nat × Bool × σ
  seek : σ → Nat → σ
  rewind : σ → σ
  readBytes : σ → UInt8 → Option (List UInt8 × Bool × σ)
  close : σ → σ

/-- The `SeekableBuffer` instance of the base `SeekBuffer`. -/
def sbOps : SeekableOps SB where
  bytes := SB.Bytes
  len := SB.Len
  write := fun s p => let r := SB.Write s p; (r.1, false, r.2)
  append := SB.Append
  read := SB.Read
  seek := SB.Seek
  rewind := SB.Rewind
  readBytes := SB.ReadBytes
  close := SB.Close

/-- The `SeekableBuffer` instance of the `FileSyncDecorator`, on a healthy
filesystem (every file write succeeds, `fsOk = true`). -/
def fsdOps : SeekableOps FSD where
  bytes := FSD.Bytes
  len := FSD.Len
  write := fun s p => FSD.Write s p true
  append := fun s p => FSD.Append s p true
  read := FSD.Read
  seek := FSD.Seek
  rewind := FSD.Rewind
  readBytes := FSD.ReadBytes
  close := FSD.Close

/-- A savepoint pushed by a nested `Begin` (Go: `transactionSavepoint`). -/
structure transactionSavepoint where
  buffer : List UInt8
  offset : Nat
  level : Nat
deriving DecidableEq, Repr

/-- The `TransactionDecorator` state over any wrapped store `σ`. -/
structure TD (σ : Type) where
  buffer : σ
  inTransaction : Bool
  transactionBuffer : List UInt8
  transactionOffset : Nat
  originalBuffer : List UInt8
  originalOffset : Nat
  nestedLevel : Nat
  savepoints : List transactionSavepoint
deriving DecidableEq, Repr

/-- The error returned by `Commit`/`Rollback` outside a transaction (Go:
`fmt.Errorf("no transaction in progress")`). -/
inductive TxError where
  | noActiveTransaction
deriving DecidableEq, Repr

/-- `NewTransactionDecorator`: wraps `b`, not in a transaction, all
transaction bookkeeping zeroed. -/
def NewTransactionDecorator {σ : Type} (b : σ) : TD σ :=
  ⟨b, false, [], 0, [], 0, 0, []⟩

/-- `getCurrentOffset`: the wrapped store's cursor, recovered as
`len(Bytes()) - Len()` (a Go `int`; for both instances the value is the
wrapped cursor, which is a natural number, so the `toNat` is lossless). -/
def TD.getCurrentOffset {σ : Type} (o : SeekableOps σ) (d : TD σ) : Nat :=
  (((o.bytes d.buffer).length : Int) - o.len d.buffer).toNat

/-- `TransactionDecorator.Begin` (always returns `nil` in the source): from
Idle, snapshot the wrapped store's content and cursor into the original and
working state at level 1; when already active, push the current working
state as a savepoint and increment the level. -/
def TD.Begin {σ : Type} (o : SeekableOps σ) (d : TD σ) : TD σ :=
  if !d.inTransaction then
    let ob := o.bytes d.buffer
    let oo := TD.getCurrentOffset o d
    { d with originalBuffer := ob, originalOffset := oo,
             transactionBuffer := ob, transactionOffset := oo,
             inTransaction := true, nestedLevel := 1 }
  else
    { d with
      savepoints := d.savepoints ++
        [⟨d.transactionBuffer, d.transactionOffset, d.nestedLevel⟩],
      nestedLevel := d.nestedLevel + 1 }

/-- `TransactionDecorator.Commit`: error if Idle; at a nested level, drop
the top savepoint and decrement; at the top level, return to Idle and apply
the working copy to the wrapped store by close-then-rewrite-then-seek. -/
def TD.Commit {σ : Type} (o : SeekableOps σ) (d : TD σ) : Option TxError × TD σ :=
  if !d.inTransaction then (some TxError.noActiveTransaction, d)
  else if 1 < d.nestedLevel then
    (none, { d with nestedLevel := d.nestedLevel - 1,
                    savepoints := if 0 < d.savepoints.length
                                  then d.savepoints.dropLast
                                  else d.savepoints })
  else
    let d1 := { d with nestedLevel := 0, inTransaction := false,
                       savepoints := [] }
    let b1 := o.close d1.buffer
    let b2 := if 0 < d.transactionBuffer.length
              then (o.write b1 d.transactionBuffer).2.2 else b1
    (none, { d1 with buffer := o.seek b2 d.transactionOffset })

/-- `TransactionDecorator.Rollback`: error if Idle; at a nested level,
decrement and (when a savepoint exists) restore the working state from the
top savepoint; at the top level, restore the working state from the
original snapshot and return to Idle. -/
def TD.Rollback {σ : Type} (d : TD σ) : Option TxError × TD σ :=
  if !d.inTransaction then (some TxError.noActiveTransaction, d)
  else if 1 < d.nestedLevel then
    match d.savepoints.getLast? with
    | some sp =>
        (none, { d with nestedLevel := d.nestedLevel - 1,
                        transactionBuffer := sp.buffer,
                        transactionOffset := sp.offset,
                        savepoints := d.savepoints.dropLast })
    | none => (none, { d with nestedLevel := d.nestedLevel - 1 })
  else
    (none, { d with transactionBuffer := d.originalBuffer,
                    transactionOffset := d.originalOffset,
                    nestedLevel := 0, inTransaction := false,
                    savepoints := [] })

/-- `TransactionDecorator.InTransaction`. -/
def TD.InTransaction {σ : Type} (d : TD σ) : Bool := d.inTransaction

/-- `TransactionDecorator.GetTransactionLevel`: 0 if Idle, else the nesting
level. -/
def TD.GetTransactionLevel {σ : Type} (d : TD σ) : Nat :=
  if !d.inTransaction then 0 else d.nestedLevel

/-- `TransactionDecorator.Write`: appends to the working copy while active,
else forwards to the wrapped store.  Returns `(count, errored, state)`. -/
def TD.Write {σ : Type} (o : SeekableOps σ) (d : TD σ) (p : List UInt8) :
    Nat × Bool × TD σ :=
  if d.inTransaction then
    (p.length, false, { d with transactionBuffer := d.transactionBuffer ++ p })
  else
    let r := o.write d.buffer p
    (r.1, r.2.1, { d with buffer := r.2.2 })

/-- `TransactionDecorator.Read`: reads from the working copy while active,
else forwards.  Returns `(bytes, count, endOfData, state)`. -/
def TD.Read {σ : Type} (o : SeekableOps σ) (d : TD σ) (dstLen : Nat) :
    List UInt8 × Nat × Bool × TD σ :=
  if d.inTransaction then
    if d.transactionBuffer.length ≤ d.transactionOffset then ([], 0, true, d)
    else
      let data := (d.transactionBuffer.drop d.transactionOffset).take dstLen
      (data, data.length, false,
       { d with transactionOffset := d.transactionOffset + data.length })
  else
    let r := o.read d.buffer dstLen
    (r.1, r.2.1, r.2.2.1, { d with buffer := r.2.2.2 })

/-- `TransactionDecorator.Append`. -/
def TD.Append {σ : Type} (o : SeekableOps σ) (d : TD σ) (src : List UInt8) : TD σ :=
  if d.inTransaction then
    { d with transactionBuffer := d.transactionBuffer ++ src }
  else { d with buffer := o.append d.buffer src }

/-- `TransactionDecorator.Bytes`. -/
def TD.Bytes {σ : Type} (o : SeekableOps σ) (d : TD σ) : List UInt8 :=
  if d.inTransaction then d.transactionBuffer else o.bytes d.buffer

/-- `TransactionDecorator.Rewind`. -/
def TD.Rewind {σ : Type} (o : SeekableOps σ) (d : TD σ) : TD σ :=
  if d.inTransaction then { d with transactionOffset := 0 }
  else { d with buffer := o.rewind d.buffer }

/-- `TransactionDecorator.Seek`. -/
def TD.Seek {σ : Type} (o : SeekableOps σ) (d : TD σ) (off : Nat) : TD σ :=
  if d.inTransaction then { d with transactionOffset := off }
  else { d with buffer := o.seek d.buffer off }

/-- `TransactionDecorator.Len`. -/
def TD.Len {σ : Type} (o : SeekableOps σ) (d : TD σ) : Int :=
  if d.inTransaction then
    (d.transactionBuffer.length : Int) - (d.transactionOffset : Int)
  else o.len d.buffer

/-- `TransactionDecorator.ReadBytes`: while active, scans the working copy
from the working cursor; the trailing slice
`d.transactionBuffer[d.transactionOffset:]` panics when the cursor is past
the end (embedded as `none`).  While Idle, forwards (a wrapped panic
propagates). -/
def TD.ReadBytes {σ : Type} (o : SeekableOps σ) (d : TD σ) (c : UInt8) :
    Option (List UInt8 × Bool × TD σ) :=
  if d.inTransaction then
    if d.transactionOffset ≤ d.transactionBuffer.length then
      match (d.transactionBuffer.drop d.transactionOffset).findIdx? (· == c) with
      | some i =>
          some ((d.transactionBuffer.drop d.transactionOffset).take (i + 1),
                false, { d with transactionOffset := d.transactionOffset + i + 1 })
      | none =>
          some (d.transactionBuffer.drop d.transactionOffset, true,
                { d with transactionOffset := d.transactionBuffer.length })
    else none
  else
    (o.readBytes d.buffer c).map (fun r => (r.1, r.2.1, { d with buffer := r.2.2 }))

/-- `TransactionDecorator.Close`: one implicit `Rollback` if a transaction
is active, then return `nil` without closing the wrapped store. -/
def TD.Close {σ : Type} (d : TD σ) : Option TxError × TD σ :=
  if d.inTransaction then (none, (TD.Rollback d).2) else (none, d)

/-- One operation issued through the `TransactionDecorator`. -/
inductive TOp where
  | write (p : List UInt8)
  | append (p : List UInt8)
  | read (dstLen : Nat)
  | seek (off : Nat)
  | rewind
  | readBytes (c : UInt8)
  | begin
  | commit
  | rollback
deriving DecidableEq, Repr

/-- Apply one operation through the overlay, discarding returned values and
errors; `none` embeds a panic. -/
def TD.applyOp {σ : Type} (o : SeekableOps σ) (d : TD σ) : TOp → Option (TD σ)
  | TOp.write p => some (TD.Write o d p).2.2
  | TOp.append p => some (TD.Append o d p)
  | TOp.read k => some (TD.Read o d k).2.2.2
  | TOp.seek n => some (TD.Seek o d n)
  | TOp.rewind => some (TD.Rewind o d)
  | TOp.readBytes c => (TD.ReadBytes o d c).map (fun r => r.2.2)
  | TOp.begin => some (TD.Begin o d)
  | TOp.commit => some (TD.Commit o d).2
  | TOp.rollback => some (TD.Rollback d).2

/-- Apply a sequence of operations through the overlay. -/
def TD.applyOps {σ : Type} (o : SeekableOps σ) : List TOp → TD σ → Option (TD σ)
  | [], d => some d
  | op :: rest, d =>
    match TD.applyOp o d op with
    | some d1 => TD.applyOps o rest d1
    | none => none

/-- Whether an intermediate overlay state is active (a panicked run is not). -/
def stateActive {σ : Type} : Option (TD σ) → Bool
  | some d => d.inTransaction
  | none => false

/-- The operations of a `Begin`/mutate/`Rollback` sequence: everything
except `commit`. -/
def TOp.noCommit : TOp → Bool
  | TOp.commit => false
  | _ => true

/-- While a transaction is active, no operation other than `commit` touches
the wrapped store. -/
theorem applyOp_buffer_eq_of_noCommit {σ : Type} (o : SeekableOps σ)
    (d d' : TD σ) (op : TOp) (h : d.inTransaction = true)
    (hop : op.noCommit = true) (hrun : TD.applyOp o d op = some d') :
    d'.buffer = d.buffer := by
  cases op with
  | write p => simp [TD.applyOp, TD.Write, h] at hrun; simp [← hrun]
  | append p => simp [TD.applyOp, TD.Append, h] at hrun; simp [← hrun]
  | read k =>
      simp only [TD.applyOp, TD.Read, h, if_true, Option.some.injEq] at hrun
      split at hrun <;> simp [← hrun]
  | seek n => simp [TD.applyOp, TD.Seek, h] at hrun; simp [← hrun]
  | rewind => simp [TD.applyOp, TD.Rewind, h] at hrun; simp [← hrun]
  | readBytes c =>
      simp only [TD.applyOp, TD.ReadBytes, h, if_true] at hrun
      split at hrun
      · split at hrun <;> simp_all <;> simp [← hrun]
      · simp at hrun
  | begin => simp [TD.applyOp, TD.Begin, h] at hrun; simp [← hrun]
  | commit => simp [TOp.noCommit] at hop
  | rollback =>
      simp only [TD.applyOp, TD.Rollback, h, Bool.not_true,
                 Bool.false_eq_true, if_false, Option.some.injEq] at hrun
      split at hrun
      · split at hrun <;> simp [← hrun]
      · simp [← hrun]

/-- While a transaction is active, an operation after which the overlay is
still active has not touched the wrapped store (the only operation that
does, the outermost `commit`, deactivates the overlay). -/
theorem applyOp_buffer_eq_of_stillActive {σ : Type} (o : SeekableOps σ)
    (d d' : TD σ) (op : TOp) (h : d.inTransaction = true)
    (hrun : TD.applyOp o d op = some d') (h' : d'.inTransaction = true) :
    d'.buffer = d.buffer := by
  cases op with
  | commit =>
      simp only [TD.applyOp, TD.Commit, h, Bool.not_true,
                 Bool.false_eq_true, if_false, Option.some.injEq] at hrun
      split at hrun
      · simp [← hrun]
      · rw [← hrun] at h'; simp at h'
  | write p =>
      exact applyOp_buffer_eq_of_noCommit o d d' (TOp.write p) h rfl hrun
  | append p =>
      exact applyOp_buffer_eq_of_noCommit o d d' (TOp.append p) h rfl hrun
  | read k =>
      exact applyOp_buffer_eq_of_noCommit o d d' (TOp.read k) h rfl hrun
  | seek n =>
      exact applyOp_buffer_eq_of_noCommit o d d' (TOp.seek n) h rfl hrun
  | rewind =>
      exact applyOp_buffer_eq_of_noCommit o d d' TOp.rewind h rfl hrun
  | readBytes c =>
      exact applyOp_buffer_eq_of_noCommit o d d' (TOp.readBytes c) h rfl hrun
  | begin =>
      exact applyOp_buffer_eq_of_noCommit o d d' TOp.begin h rfl hrun
  | rollback =>
      exact applyOp_buffer_eq_of_noCommit o d d' TOp.rollback h rfl hrun

/-- A commit-free sequence started in an active transaction, all of whose
proper prefixes leave the overlay active, never touches the wrapped store. -/
theorem applyOps_buffer_eq_of_noCommit {σ : Type} (o : SeekableOps σ) :
    ∀ (ops : List TOp) (d d' : TD σ), d.inTransaction = true →
      (∀ op ∈ ops, op.noCommit = true) →
      TD.applyOps o ops d = some d' →
      (∀ k, k < ops.length →
        stateActive (TD.applyOps o (ops.take k) d) = true) →
      d'.buffer = d.buffer := by
  intro ops
  induction ops with
  | nil =>
      intro d d' h _ hrun _
      simp [TD.applyOps] at hrun
      simp [← hrun]
  | cons op rest ih =>
      intro d d' h hops hrun hmid
      cases happ : TD.applyOp o d op with
      | none => simp [TD.applyOps, happ] at hrun
      | some d1 =>
          have hrest : TD.applyOps o rest d1 = some d' := by
            simpa [TD.applyOps, happ] using hrun
          have hbuf : d1.buffer = d.buffer :=
            applyOp_buffer_eq_of_noCommit o d d1 op h
              (hops op (List.mem_cons_self op rest)) happ
          cases rest with
          | nil =>
              simp [TD.applyOps] at hrest
              exact hrest ▸ hbuf
          | cons r rs =>
              have h1 : d1.inTransaction = true := by
                have := hmid 1 (by simp)
                simpa [TD.applyOps, happ, stateActive] using this
              have ihmid : ∀ k, k < (r :: rs).length →
                  stateActive (TD.applyOps o ((r :: rs).take k) d1) = true := by
                intro k hk
                have := hmid (k + 1) (by simpa using Nat.succ_lt_succ hk)
                simpa [List.take_succ_cons, TD.applyOps, happ] using this
              have ihops : ∀ op2 ∈ (r :: rs), op2.noCommit = true := by
                intro op2 hmem
                exact hops op2 (List.mem_cons_of_mem op hmem)
              have := ih d1 d' h1 ihops hrest ihmid
              rw [this, hbuf]

/-- A sequence started in an active transaction, all of whose prefixes
(including the whole sequence) leave the overlay active, never touches the
wrapped store: the outermost `commit` never ran. -/
theorem applyOps_buffer_eq_of_stillActive {σ : Type} (o : SeekableOps σ) :
    ∀ (ops : List TOp) (d d' : TD σ), d.inTransaction = true →
      TD.applyOps o ops d = some d' →
      (∀ k, k ≤ ops.length →
        stateActive (TD.applyOps o (ops.take k) d) = true) →
      d'.buffer = d.buffer := by
  intro ops
  induction ops with
  | nil =>
      intro d d' h hrun _
      simp [TD.applyOps] at hrun
      simp [← hrun]
  | cons op rest ih =>
      intro d d' h hrun hmid
      cases happ : TD.applyOp o d op with
      | none => simp [TD.applyOps, happ] at hrun
      | some d1 =>
          have hrest : TD.applyOps o rest d1 = some d' := by
            simpa [TD.applyOps, happ] using hrun
          have h1 : d1.inTransaction = true := by
            have := hmid 1 (by simp)
            simpa [TD.applyOps, happ, stateActive] using this
          have hbuf : d1.buffer = d.buffer :=
            applyOp_buffer_eq_of_stillActive o d d1 op h happ h1
          have ihmid : ∀ k, k ≤ rest.length →
              stateActive (TD.applyOps o (rest.take k) d1) = true := by
            intro k hk
            have := hmid (k + 1) (by simpa using Nat.succ_le_succ hk)
            simpa [List.take_succ_cons, TD.applyOps, happ] using this
          have := ih d1 d' h1 hrest ihmid
          rw [this, hbuf]

/-- C3: any sequence of nested `Begin` / mutating operations (`Write`,
`Append`, `Read`, `Seek`, `Rewind`, `ReadBytes`) / `Rollback` on the overlay
that starts Idle, stays active through every intermediate state, and fully
unwinds to level 0, leaves the wrapped base store's content and cursor
exactly as they were immediately before the outermost `Begin`. -/
theorem transaction_rollback_exactness (td0 tdf : TD SB) (ops : List TOp)
    (h0 : td0.inTransaction = false)
    (hops : ∀ op ∈ ops, op.noCommit = true)
    (hrun : TD.applyOps sbOps (TOp.begin :: ops) td0 = some tdf)
    (hmid : ∀ k, k < ops.length →
      stateActive (TD.applyOps sbOps (TOp.begin :: ops.take k) td0) = true)
    (_hfin : tdf.inTransaction = false) :
    tdf.buffer.buffer = td0.buffer.buffer ∧
    tdf.buffer.offset = td0.buffer.offset := by
  have hbeg : TD.applyOp sbOps td0 TOp.begin = some (TD.Begin sbOps td0) := rfl
  have hrest : TD.applyOps sbOps ops (TD.Begin sbOps td0) = some tdf := by
    simpa [TD.applyOps, hbeg] using hrun
  have h1 : (TD.Begin sbOps td0).inTransaction = true := by
    simp [TD.Begin, h0]
  have hb1 : (TD.Begin sbOps td0).buffer = td0.buffer := by
    simp [TD.Begin, h0]
  have hmid1 : ∀ k, k < ops.length →
      stateActive (TD.applyOps sbOps (ops.take k) (TD.Begin sbOps td0)) = true := by
    intro k hk
    simpa [TD.applyOps, hbeg] using hmid k hk
  have := applyOps_buffer_eq_of_noCommit sbOps ops (TD.Begin sbOps td0) tdf
    h1 hops hrest hmid1
  rw [this, hb1]
  exact ⟨rfl, rfl⟩

/-- Witness for `transaction_rollback_exactness`: base store `[1, 2]` at
cursor 1; `Begin`, `Write [3]`, `Rollback`. -/
theorem transaction_rollback_exactness_witness :
    (⟨⟨[1, 2], 1⟩, false, [1, 2], 1, [1, 2], 1, 0, []⟩ : TD SB).buffer.buffer =
      (⟨⟨[1, 2], 1⟩, false, [], 0, [], 0, 0, []⟩ : TD SB).buffer.buffer ∧
    (⟨⟨[1, 2], 1⟩, false, [1, 2], 1, [1, 2], 1, 0, []⟩ : TD SB).buffer.offset =
      (⟨⟨[1, 2], 1⟩, false, [], 0, [], 0, 0, []⟩ : TD SB).buffer.offset :=
  transaction_rollback_exactness
    ⟨⟨[1, 2], 1⟩, false, [], 0, [], 0, 0, []⟩
    ⟨⟨[1, 2], 1⟩, false, [1, 2], 1, [1, 2], 1, 0, []⟩
    [TOp.write [3], TOp.rollback]
    (by decide) (by decide) (by decide) (by decide) (by decide)

/-- C4: starting from an active transaction, any sequence of operations
through the overlay — in particular every `Write` and `Append` — after
which (and throughout which) the overlay is still active, i.e. the matching
outermost `Commit` has not executed, leaves the wrapped store, and hence
its content snapshot (`Bytes`), unchanged. -/
theorem transaction_isolation {σ : Type} (o : SeekableOps σ)
    (td0 tdf : TD σ) (ops : List TOp)
    (h0 : td0.inTransaction = true)
    (hrun : TD.applyOps o ops td0 = some tdf)
    (hmid : ∀ k, k ≤ ops.length →
      stateActive (TD.applyOps o (ops.take k) td0) = true) :
    o.bytes tdf.buffer = o.bytes td0.buffer ∧ tdf.buffer = td0.buffer := by
  have := applyOps_buffer_eq_of_stillActive o ops td0 tdf h0 hrun hmid
  exact ⟨by rw [this], this⟩

/-- Witness for `transaction_isolation`: wrapped store `[1]`, one `Write`
and one `Append` inside the transaction. -/
theorem transaction_isolation_witness :
    sbOps.bytes (⟨⟨[1], 0⟩, true, [1, 5, 6], 0, [1], 0, 1, []⟩ : TD SB).buffer =
      sbOps.bytes (⟨⟨[1], 0⟩, true, [1], 0, [1], 0, 1, []⟩ : TD SB).buffer ∧
    (⟨⟨[1], 0⟩, true, [1, 5, 6], 0, [1], 0, 1, []⟩ : TD SB).buffer =
      (⟨⟨[1], 0⟩, true, [1], 0, [1], 0, 1, []⟩ : TD SB).buffer :=
  transaction_isolation sbOps
    ⟨⟨[1], 0⟩, true, [1], 0, [1], 0, 1, []⟩
    ⟨⟨[1], 0⟩, true, [1, 5, 6], 0, [1], 0, 1, []⟩
    [TOp.write [5], TOp.append [6]]
    (by decide) (by decide) (by decide)

/-- C2 counterexample input: base store `[1]`; `Begin`, `Write [7]`,
`Begin` reaches nesting level 2; the claim says `close()` then performs a
full rollback to the outermost snapshot leaving the overlay Idle at level
0, but `Close` performs a single `Rollback`, which only pops one savepoint:
the overlay stays Active at level 1 with the savepoint's working copy
`[1, 7]`, not the outermost snapshot `[1]`. -/
theorem transaction_close_at_depth_two_stays_active :
    TD.applyOps sbOps [TOp.begin, TOp.write [7], TOp.begin]
        (NewTransactionDecorator (⟨[1], 0⟩ : SB)) =
      some ⟨⟨[1], 0⟩, true, [1, 7], 0, [1], 0, 2, [⟨[1, 7], 0, 1⟩]⟩ ∧
    (TD.Close (⟨⟨[1], 0⟩, true, [1, 7], 0, [1], 0, 2,
        [⟨[1, 7], 0, 1⟩]⟩ : TD SB)).2.inTransaction = true ∧
    TD.GetTransactionLevel
      (TD.Close (⟨⟨[1], 0⟩, true, [1, 7], 0, [1], 0, 2,
        [⟨[1, 7], 0, 1⟩]⟩ : TD SB)).2 = 1 ∧
    (TD.Close (⟨⟨[1], 0⟩, true, [1, 7], 0, [1], 0, 2,
        [⟨[1, 7], 0, 1⟩]⟩ : TD SB)).2.transactionBuffer = [1, 7] := by
  decide

/-- C2 (amended): `close()` while Active performs a single implicit
`Rollback` (one level, not a full unwind), returns no error, and never
touches the wrapped store: at level 1 this restores the working state from
the outermost snapshot and leaves the overlay Idle at level 0; at level
k ≥ 2 it pops one savepoint and leaves the overlay Active at level k−1. -/
theorem transaction_close_single_rollback {σ : Type} (d : TD σ)
    (h : d.inTransaction = true) :
    (TD.Close d).1 = none ∧
    (TD.Close d).2 = (TD.Rollback d).2 ∧
    (TD.Close d).2.buffer = d.buffer ∧
    (d.nestedLevel ≤ 1 →
      (TD.Close d).2.inTransaction = false ∧
      (TD.Close d).2.transactionBuffer = d.originalBuffer ∧
      (TD.Close d).2.transactionOffset = d.originalOffset ∧
      TD.GetTransactionLevel (TD.Close d).2 = 0) ∧
    (1 < d.nestedLevel →
      (TD.Close d).2.inTransaction = true ∧
      TD.GetTransactionLevel (TD.Close d).2 = d.nestedLevel - 1) := by
  refine ⟨by simp [TD.Close, h], by simp [TD.Close, h], ?_, ?_, ?_⟩
  · simp only [TD.Close, h, if_true]
    simp only [TD.Rollback, h, Bool.not_true, Bool.false_eq_true, if_false]
    split
    · split <;> simp
    · simp
  · intro hle
    have hnlt : ¬ 1 < d.nestedLevel := by omega
    simp [TD.Close, TD.Rollback, TD.GetTransactionLevel, h, hnlt]
  · intro hgt
    simp only [TD.Close, h, if_true]
    simp only [TD.Rollback, h, Bool.not_true, Bool.false_eq_true,
               if_false, hgt, if_true]
    cases hsp : d.savepoints.getLast? <;>
      simp [TD.GetTransactionLevel, h]

/-- Witness for `transaction_close_single_rollback` at level 1: working
copy `[1, 9]` over original `[1]`. -/
theorem transaction_close_single_rollback_witness :
    (TD.Close (⟨⟨[1], 0⟩, true, [1, 9], 0, [1], 0, 1, []⟩ : TD SB)).1 = none ∧
    (TD.Close (⟨⟨[1], 0⟩, true, [1, 9], 0, [1], 0, 1, []⟩ : TD SB)).2.inTransaction
      = false ∧
    (TD.Close (⟨⟨[1], 0⟩, true, [1, 9], 0, [1], 0, 1, []⟩ : TD SB)).2.transactionBuffer
      = [1] ∧
    (TD.Close (⟨⟨[1], 0⟩, true, [1, 9], 0, [1], 0, 1, []⟩ : TD SB)).2.buffer
      = ⟨[1], 0⟩ := by
  have h := transaction_close_single_rollback
    (⟨⟨[1], 0⟩, true, [1, 9], 0, [1], 0, 1, []⟩ : TD SB) (by decide)
  have h4 := h.2.2.2.1 (by decide)
  exact ⟨h.1, h4.1, by simpa using h4.2.1, by simpa using h.2.2.1⟩

/-- C5: `Commit` of an active level-1 transaction over a base `SeekBuffer`
returns no error, rewrites the wrapped store (close, then write the working
copy if nonempty, then seek) so that its content equals the working copy —
also when the working copy is empty — and its cursor equals the working
cursor, and leaves the overlay Idle at level 0. -/
theorem transaction_commit_level_one (d : TD SB)
    (h : d.inTransaction = true) (hl : d.nestedLevel = 1) :
    (TD.Commit sbOps d).1 = none ∧
    (TD.Commit sbOps d).2.buffer.buffer = d.transactionBuffer ∧
    (TD.Commit sbOps d).2.buffer.offset = d.transactionOffset ∧
    (TD.Commit sbOps d).2.inTransaction = false ∧
    TD.GetTransactionLevel (TD.Commit sbOps d).2 = 0 := by
  have hnlt : ¬ 1 < d.nestedLevel := by omega
  rcases Nat.eq_zero_or_pos d.transactionBuffer.length with hz | hp
  · have he : d.transactionBuffer = [] := List.eq_nil_of_length_eq_zero hz
    simp [TD.Commit, TD.GetTransactionLevel, h, hnlt, he,
          sbOps, SB.Close, SB.Write, SB.Seek]
  · simp [TD.Commit, TD.GetTransactionLevel, h, hnlt, hp,
          sbOps, SB.Close, SB.Write, SB.Seek]

/-- Witness for `transaction_commit_level_one` with an empty working copy
and working cursor 3 over wrapped content `[9]`. -/
theorem transaction_commit_level_one_witness :
    (TD.Commit sbOps (⟨⟨[9], 2⟩, true, [], 3, [9], 0, 1, []⟩ : TD SB)).1 = none ∧
    (TD.Commit sbOps (⟨⟨[9], 2⟩, true, [], 3, [9], 0, 1, []⟩ : TD SB)).2.buffer
      = ⟨[], 3⟩ ∧
    (TD.Commit sbOps (⟨⟨[9], 2⟩, true, [], 3, [9], 0, 1, []⟩ : TD SB)).2.inTransaction
      = false := by
  have h := transaction_commit_level_one
    (⟨⟨[9], 2⟩, true, [], 3, [9], 0, 1, []⟩ : TD SB) (by decide) (by decide)
  refine ⟨h.1, ?_, h.2.2.2.1⟩
  have h1 := h.2.1
  have h2 := h.2.2.1
  cases hb : (TD.Commit sbOps (⟨⟨[9], 2⟩, true, [], 3, [9], 0, 1, []⟩ : TD SB)).2.buffer
  simp_all

/-- C10: `Commit` and `Rollback` return `NoActiveTransaction` exactly when
the overlay is Idle, and in that failing case the whole decorator state —
the wrapped store included — is returned unchanged. -/
theorem commit_rollback_require_active {σ : Type} (o : SeekableOps σ)
    (d : TD σ) :
    ((TD.Commit o d).1 = some TxError.noActiveTransaction ↔
      d.inTransaction = false) ∧
    ((TD.Rollback d).1 = some TxError.noActiveTransaction ↔
      d.inTransaction = false) ∧
    (d.inTransaction = false →
      (TD.Commit o d).2 = d ∧ (TD.Rollback d).2 = d) := by
  cases hin : d.inTransaction with
  | false => simp [TD.Commit, TD.Rollback, hin]
  | true =>
      refine ⟨?_, ?_, ?_⟩
      · simp only [TD.Commit, hin, Bool.not_true, Bool.false_eq_true, if_false]
        split <;> simp
      · simp only [TD.Rollback, hin, Bool.not_true, Bool.false_eq_true, if_false]
        split
        · split <;> simp
        · simp
      · intro hfalse
        exact absurd hfalse (by simp)

/-- Witness for `commit_rollback_require_active` on an Idle decorator over
`[2]` at cursor 1. -/
theorem commit_rollback_require_active_witness :
    (TD.Commit sbOps (NewTransactionDecorator (⟨[2], 1⟩ : SB))).1 =
      some TxError.noActiveTransaction ∧
    (TD.Rollback (NewTransactionDecorator (⟨[2], 1⟩ : SB))).1 =
      some TxError.noActiveTransaction ∧
    (TD.Commit sbOps (NewTransactionDecorator (⟨[2], 1⟩ : SB))).2 =
      NewTransactionDecorator (⟨[2], 1⟩ : SB) ∧
    (TD.Rollback (NewTransactionDecorator (⟨[2], 1⟩ : SB))).2 =
      NewTransactionDecorator (⟨[2], 1⟩ : SB) := by
  have h := commit_rollback_require_active sbOps
    (NewTransactionDecorator (⟨[2], 1⟩ : SB))
  exact ⟨h.1.mpr rfl, h.2.1.mpr rfl, (h.2.2 rfl).1, (h.2.2 rfl).2⟩

/-- C1 failing run: a `TransactionDecorator` over a `FileSyncDecorator`
with sync enabled to an empty file; `Begin`, `Write [72, 105]`, `Commit`.
The outermost `Commit` calls `Close` on the wrapped `FileSyncDecorator`,
which closes the file handle and disables sync, so the rewrite of the
working copy is never mirrored: afterwards the backing file still holds the
pre-transaction bytes (`[]`) while the buffer content is `[72, 105]`, and
sync is left disabled (no open handle), so later writes are not mirrored
either — contradicting the claim that the file equals `content_snapshot()`
and that sync remains usable. -/
theorem commit_over_filesync_detaches_file :
    (TD.applyOps fsdOps [TOp.begin, TOp.write [72, 105], TOp.commit]
        (NewTransactionDecorator
          (FSD.EnableFileSync (NewFileSyncDecorator ⟨[], 0⟩ []) "f"))).map
      (fun t => (t.buffer.disk, FSD.Bytes t.buffer,
                 t.buffer.syncEnabled, t.buffer.filePos)) =
      some ([], [72, 105], false, none) ∧
    ([] : List UInt8) ≠ [72, 105] := by
  decide
